import Mathlib

/-!
# CompileTimeMaps: a compile-time key/type map

A shallow embedding of `main.cpp`.  The C++ program computes everything with
templates and `constexpr` functions; here every template is a total Lean
function on the data its arguments denote, and a `static_assert` is a Boolean
flag (or an error result) of the instantiation.

* a key is a `constexpr char` array: a *named constant* carrying a text.  As a
  non-type template argument `const char *text` it is compared by address,
  that is by the identity of the constant, not by its characters;
* a map is `std::tuple<KeyTypePair<text, T>...>`: a list of bindings;
* a C++ type is a term of `CppType`, on which `std::is_same` is equality.
-/

set_option autoImplicit false

namespace CompileTimeMaps

/-! ## C++ types -/

/-- Top-level const/volatile qualification of a type. -/
structure CV where
  isConst : Bool
  isVolatile : Bool
deriving DecidableEq, Repr

/-- The unqualified state. -/
def CV.none : CV := ⟨false, false⟩

/-- C++ types, up to `std::is_same`.  Qualifiers are stored as flags so that
`const volatile T` and `volatile const T` are one term; an array carries the
qualifiers of its element type. -/
inductive CppType where
  /-- A scalar or class type named by its spelling (`float`, `std::true_type`, ...). -/
  | object (name : String) (cv : CV)
  /-- The type `T *` with its own qualifiers. -/
  | pointer (pointee : CppType) (cv : CV)
  /-- The type `T &`. -/
  | lvalueRef (referee : CppType)
  /-- The type `T &&`. -/
  | rvalueRef (referee : CppType)
  /-- The type `T[extent]`. -/
  | array (elem : CppType) (extent : Nat)
  /-- A function type, named by its signature. -/
  | function (signature : String)
deriving DecidableEq, Repr

/-- Library trait `std::remove_reference_t`. -/
def remove_reference : CppType → CppType
  | .lvalueRef t => t
  | .rvalueRef t => t
  | t => t

/-- Library trait `std::remove_cv_t`. -/
def remove_cv : CppType → CppType
  | .object n _ => .object n CV.none
  | .pointer t _ => .pointer t CV.none
  | t => t

/-- Library trait `std::decay_t`: strip the reference; an array becomes a
pointer to its element, a function a pointer to itself, anything else loses
its top-level qualifiers. -/
def decay (T : CppType) : CppType :=
  match remove_reference T with
  | .array e _ => .pointer e CV.none
  | .function s => .pointer (.function s) CV.none
  | U => remove_cv U

/-! ## Keys, bindings, maps -/

/-- A key constant: `constexpr char name[] = "text";`.  The characters are the
`char` values before the terminating NUL of the array.  Two constants are the
same template argument exactly when they are the same declaration. -/
structure Key where
  name : String
  text : List Int
deriving DecidableEq, Repr

/-- The template `KeyTypePair<text, T>`: member `key` is the key constant and
member `Type` the declared type. -/
structure KeyTypePair where
  key : Key
  type : CppType
deriving DecidableEq, Repr

/-- A map is a `std::tuple` of `KeyTypePair`s. -/
abbrev Tuple := List KeyTypePair

/-- The type `KeyTypePair<text, Tuple>` used as accessor parameter
(`HelloParam`, ...): a key constant together with the map it is looked up in. -/
structure Param where
  text : Key
  Tuple : Tuple
deriving DecidableEq, Repr

/-! ## Index resolution -/

/-- What an instantiation of `MapKeyIndexHelper` yields: its `value` member
and whether every "type appears more than once in tuple" assertion met while
instantiating it holds. -/
structure HelperResult where
  value : Nat
  assertOnce : Bool
deriving DecidableEq, Repr

/-- The three specialisations of `MapKeyIndexHelper<text, Tuple>`:
the empty tuple; a tuple whose head is `KeyTypePair<text, T>` for the very
constant `text`; any other non-empty tuple. -/
def MapKeyIndexHelper (text : Key) : Tuple → HelperResult
  | [] => ⟨0, true⟩
  | First :: Rest =>
    let r := MapKeyIndexHelper text Rest
    if First.key = text then
      ⟨0, r.assertOnce && decide (r.value = Rest.length)⟩
    else
      ⟨1 + r.value, r.assertOnce⟩

/-- What an instantiation of `MapKeyIndex` yields: `value`, the helper's
assertions, and the assertion `value < tuple_size` ("type does not appear in
tuple"). -/
structure IndexResult where
  value : Nat
  assertOnce : Bool
  assertAppears : Bool
deriving DecidableEq, Repr

/-- The template `MapKeyIndex<text, Tuple>`. -/
def MapKeyIndex (text : Key) (Tuple : Tuple) : IndexResult :=
  let r := MapKeyIndexHelper text Tuple
  ⟨r.value, r.assertOnce, decide (r.value < Tuple.length)⟩

/-! ## Uniqueness -/

/-- The template `IsOneOf<F, S...>`; `std::is_same` is decidable equality. -/
def IsOneOf {α : Type} [DecidableEq α] (F : α) : List α → Bool
  | [] => false
  | S :: T => decide (F = S) || IsOneOf F T

/-- The template `IsUnique<F, T...>`. -/
def IsUnique {α : Type} [DecidableEq α] : List α → Bool
  | [] => true
  | F :: T => IsUnique T && !IsOneOf F T

/-- Conversion `static_cast<size_t>(c)` of a `char` value to the unsigned
64-bit `size_t`. -/
def toSizeT (c : Int) : Nat := (c % (2 ^ 64 : Nat)).toNat

/-- The function `getConstHash`: reading stops at the first NUL (the end of
the list is the terminating NUL of the array); arithmetic is `size_t`
arithmetic, modulo `2 ^ 64`. -/
def getConstHash : List Int → Nat
  | [] => 5381
  | c :: rest =>
    if c ≠ 0 then (toSizeT c + (33 * getConstHash rest) % 2 ^ 64) % 2 ^ 64 else 5381

/-- The template `CheckUniqueness<std::tuple<KeyTypePair<text, type>...>>`:
`SizeHelper<getConstHash(text)>...` are pairwise different types and
`TextHelper<text>...` are pairwise different types. -/
def CheckUniqueness (Tuple : Tuple) : Bool :=
  IsUnique (Tuple.map fun p => getConstHash p.key.text)
    && IsUnique (Tuple.map fun p => p.key)

/-! ## Accessors -/

deriving instance DecidableEq for Except

/-- The ways a use of the map fails to compile. -/
inductive CompileError where
  /-- Assertion "type appears more than once in tuple". -/
  | typeAppearsMoreThanOnce
  /-- Assertion "type does not appear in tuple". -/
  | typeDoesNotAppear
  /-- No viable overload: the `std::enable_if_t` condition of `set` is false. -/
  | noMatchingFunction
  /-- The body of `get` is ill-formed: `return Type{}` cannot be compiled in a
  function returning `Type`. -/
  | illFormedReturn
deriving DecidableEq, Repr

/-- The members of `GetType<KeyTypePair<text, Tuple>>`. -/
structure GetTypeResult where
  type : CppType
  key : Key
deriving DecidableEq, Repr

/-- The template `GetType<KeyTypePair<text, Tuple>>`: instantiating it
instantiates `MapKeyIndex<text, Tuple>` with its assertions, then takes the
`Type` member of the tuple element at `index`. -/
def GetType (T : Param) : Except CompileError GetTypeResult :=
  let r := MapKeyIndex T.text T.Tuple
  if r.assertOnce = false then .error .typeAppearsMoreThanOnce
  else if r.assertAppears = false then .error .typeDoesNotAppear
  else
    match T.Tuple[r.value]? with
    | some TupleElement => .ok ⟨TupleElement.type, T.text⟩
    | none => .error .typeDoesNotAppear

/-- A returned value: `valueInit T` is the expression `T{}`, the
value-initialised instance of `T`; `temporary T` is a reference bound to the
value-initialised temporary of type `T`. -/
inductive Value where
  | valueInit (T : CppType)
  | temporary (T : CppType)
deriving DecidableEq, Repr

/-- What a call of `get` returns: the type of the call expression `get<T>()`,
that is `decltype(get<T>())`, and the value. -/
structure Returned where
  type : CppType
  value : Value
deriving DecidableEq, Repr

/-- Top-level qualification of an object type, for an array that of its
element type; `none` for a reference or function type, which has none. -/
def objectCV : CppType → Option CV
  | .object _ cv => some cv
  | .pointer _ cv => some cv
  | .array e _ => objectCV e
  | _ => none

/-- The statement `return Type{};` in a function declared to return `Type`, by
the rules of C++17.  Which names are class types is declared outside the
program text and is the parameter `isClass`; a class is taken to be
default-constructible.
* A class type is returned as it is, qualifiers included; a prvalue of scalar
  or pointer type loses its top-level qualifiers.
* A reference is bound to the temporary `T{}` of its referee: an lvalue
  reference only when the referee is an object type qualified `const` and not
  `volatile`, an rvalue reference when the referee is an object type.
* A function cannot return an array or a function. -/
def returnValueInit (isClass : String → Bool) : CppType → Except CompileError Returned
  | .object n cv =>
    .ok ⟨.object n (if isClass n then cv else CV.none),
      .valueInit (.object n (if isClass n then cv else CV.none))⟩
  | .pointer t _ => .ok ⟨.pointer t CV.none, .valueInit (.pointer t CV.none)⟩
  | .lvalueRef t =>
    if objectCV t = some ⟨true, false⟩ then .ok ⟨.lvalueRef t, .temporary t⟩
    else .error .illFormedReturn
  | .rvalueRef t =>
    if (objectCV t).isSome then .ok ⟨.rvalueRef t, .temporary t⟩
    else .error .illFormedReturn
  | .array _ _ => .error .illFormedReturn
  | .function _ => .error .illFormedReturn

/-- The function template `get<T>()`: its return type needs `GetType<T>`
first, then the body `return typename GetType<T>::Type{};` is compiled for
that type.  The line written to the console is not part of the model. -/
def get (isClass : String → Bool) (T : Param) : Except CompileError Returned :=
  match GetType T with
  | .error e => .error e
  | .ok g => returnValueInit isClass g.type

/-- The function template `set<T, ValueType>(ValueType)`: the return type
`std::enable_if_t<std::is_same<std::decay_t<ValueType>, GetType<T>::Type>::value>`
needs `GetType<T>` first, then the comparison. -/
def set (T : Param) (ValueType : CppType) : Except CompileError Unit :=
  match GetType T with
  | .error e => .error e
  | .ok g => if decay ValueType = g.type then .ok () else .error .noMatchingFunction

/-! ## The program's constants -/

/-- Characters of a literal as `char` values. -/
def chars (s : String) : List Int := s.data.map fun c => (c.toNat : Int)

def hello : Key := ⟨"hello", chars "hellow"⟩
def world : Key := ⟨"world", chars "world"⟩
def anotherWorld : Key := ⟨"anotherWorld", chars "world"⟩
def is : Key := ⟨"is", chars "is"⟩
def empty : Key := ⟨"empty", chars "empty"⟩
def nowhere : Key := ⟨"nowhere", chars "nowhere"⟩

def float : CppType := .object "float" CV.none
def double : CppType := .object "double" CV.none
def bool : CppType := .object "bool" CV.none
def true_type : CppType := .object "std::true_type" CV.none

/-- The class types among the types the program names: `std::true_type` of
`<type_traits>`; `float`, `double` and `bool` are scalar types. -/
def programClasses (name : String) : Bool := decide (name = "std::true_type")

def CompileTimeMap : Tuple :=
  [⟨hello, float⟩, ⟨world, true_type⟩, ⟨is, double⟩, ⟨empty, bool⟩]

def HelloParam : Param := ⟨hello, CompileTimeMap⟩
def IsParam : Param := ⟨is, CompileTimeMap⟩
def EmptyParam : Param := ⟨empty, CompileTimeMap⟩
def NoWhereParam : Param := ⟨nowhere, CompileTimeMap⟩

def NonUniqueTypeMap : Tuple := [⟨world, float⟩, ⟨anotherWorld, true_type⟩]

def OtherNonUniqueTypeMap : Tuple := [⟨world, float⟩, ⟨world, true_type⟩]

/-- Two constants with different texts and the same hash: the texts of the
colliding pair `"aB"` and `"@C"`. -/
def aB : Key := ⟨"aB", chars "aB"⟩
def atC : Key := ⟨"atC", chars "@C"⟩

/-- A map binding two keys whose texts differ and whose hashes agree. -/
def CollidingMap : Tuple := [⟨aB, float⟩, ⟨atC, double⟩]

/-- The type `const double`. -/
def constDouble : CppType := .object "double" ⟨true, false⟩

/-- The type `const double &`. -/
def constDoubleRef : CppType := .lvalueRef constDouble

/-- A map whose only binding declares the const-qualified type `const double`. -/
def ConstMap : Tuple := [⟨is, constDouble⟩]

/-- Whether a type is a reference type. -/
def isReference : CppType → Bool
  | .lvalueRef _ => true
  | .rvalueRef _ => true
  | _ => false

/-- Pairwise-distinct hashes in words: bindings at two different positions
never have the same `getConstHash` value of their key texts. -/
def HashesPairwiseDistinct (m : Tuple) : Prop :=
  ∀ (i j : Nat) (hi : i < m.length) (hj : j < m.length), i ≠ j →
    getConstHash m[i].key.text ≠ getConstHash m[j].key.text

/-- The exact, unbounded integer of a key text `s` of `n` characters:
`5381 * 33 ^ n` plus the sum over `i < n` of `code (s i) * 33 ^ i`, where
`s 0` is the first character. -/
def exactHash (s : List Int) : Nat :=
  5381 * 33 ^ s.length + ∑ i in Finset.range s.length, (s.getD i 0).toNat * 33 ^ i

/-- A map binding the constant `world` three times. -/
def TripleMap : Tuple := [⟨hello, float⟩, ⟨world, float⟩, ⟨world, bool⟩, ⟨world, double⟩]

/-! ## Auxiliary facts -/

theorem IsOneOf_iff_mem {α : Type} [DecidableEq α] (F : α) (l : List α) :
    IsOneOf F l = true ↔ F ∈ l := by
  induction l with
  | nil => simp [IsOneOf]
  | cons S T ih => simp [IsOneOf, ih]

theorem IsUnique_iff_nodup {α : Type} [DecidableEq α] (l : List α) :
    IsUnique l = true ↔ l.Nodup := by
  induction l with
  | nil => simp [IsUnique]
  | cons F T ih =>
    have hmem := IsOneOf_iff_mem F T
    by_cases hF : F ∈ T
    · simp [IsUnique, hmem.mpr hF, hF]
    · have hfalse : IsOneOf F T = false := by
        cases hv : IsOneOf F T with
        | false => rfl
        | true => exact absurd (hmem.mp hv) hF
      simp [IsUnique, hfalse, hF, ih]

theorem CheckUniqueness_iff (m : Tuple) :
    CheckUniqueness m = true ↔
      (m.map fun p => getConstHash p.key.text).Nodup ∧ (m.map fun p => p.key).Nodup := by
  simp [CheckUniqueness, IsUnique_iff_nodup]

theorem helper_absent (k : Key) (m : Tuple) (h : ∀ b ∈ m, b.key ≠ k) :
    MapKeyIndexHelper k m = ⟨m.length, true⟩ := by
  induction m with
  | nil => rfl
  | cons b rest ih =>
    have hb : b.key ≠ k := h b (List.mem_cons_self _ _)
    have hrest := ih fun c hc => h c (List.mem_cons_of_mem _ hc)
    simp [MapKeyIndexHelper, hb, hrest, Nat.add_comm]

theorem helper_value_le (k : Key) (m : Tuple) :
    (MapKeyIndexHelper k m).value ≤ m.length := by
  induction m with
  | nil => simp [MapKeyIndexHelper]
  | cons b rest ih =>
    by_cases hb : b.key = k
    · simp [MapKeyIndexHelper, hb]
    · simp [MapKeyIndexHelper, hb]; omega

theorem helper_selects (k : Key) (m : Tuple)
    (h : (MapKeyIndexHelper k m).value < m.length) :
    ∃ b, m[(MapKeyIndexHelper k m).value]? = some b ∧ b.key = k := by
  induction m with
  | nil => simp at h
  | cons b rest ih =>
    by_cases hb : b.key = k
    · exact ⟨b, by simp [MapKeyIndexHelper, hb], hb⟩
    · have hlt : (MapKeyIndexHelper k rest).value < rest.length := by
        simp [MapKeyIndexHelper, hb] at h; omega
      obtain ⟨c, hc, hk⟩ := ih hlt
      refine ⟨c, ?_, hk⟩
      simp only [MapKeyIndexHelper, hb, if_false, Nat.add_comm 1, List.getElem?_cons_succ]
      exact hc

theorem helper_at (m : Tuple) (hn : (m.map fun p => p.key).Nodup) (i : Nat)
    (hi : i < m.length) : MapKeyIndexHelper m[i].key m = ⟨i, true⟩ := by
  induction m generalizing i with
  | nil => simp at hi
  | cons b rest ih =>
    simp only [List.map_cons, List.nodup_cons, List.mem_map, not_exists, not_and] at hn
    cases i with
    | zero =>
      have hab := helper_absent b.key rest fun c hc hcb => hn.1 c hc hcb
      simp [MapKeyIndexHelper, hab]
    | succ j =>
      have hj : j < rest.length := by simpa using hi
      have hne : b.key ≠ rest[j].key := fun e => hn.1 rest[j] (List.getElem_mem _) e.symm
      simp [MapKeyIndexHelper, hne, ih hn.2 j hj, Nat.add_comm]

theorem GetType_of_helper (k : Key) (m : Tuple) (b : KeyTypePair) (i : Nat)
    (hh : MapKeyIndexHelper k m = ⟨i, true⟩) (hb : m[i]? = some b) :
    GetType ⟨k, m⟩ = .ok ⟨b.type, k⟩ := by
  have hi : i < m.length := by
    rcases Nat.lt_or_ge i m.length with h | h
    · exact h
    · rw [List.getElem?_eq_none h] at hb; cases hb
  simp [GetType, MapKeyIndex, hh, hi, hb]

theorem GetType_absent (k : Key) (m : Tuple) (h : ∀ b ∈ m, b.key ≠ k) :
    GetType ⟨k, m⟩ = .error .typeDoesNotAppear := by
  simp [GetType, MapKeyIndex, helper_absent k m h]

theorem not_nodup_of_getElem_eq {α : Type} (l : List α) (i j : Nat) (hi : i < l.length)
    (hj : j < l.length) (hij : i ≠ j) (h : l[i] = l[j]) : ¬ l.Nodup := by
  intro hn
  exact hij ((List.Nodup.getElem_inj_iff hn).mp h)

theorem CheckUniqueness_false_of_hash_eq (m : Tuple) (i j : Nat) (hi : i < m.length)
    (hj : j < m.length) (hij : i ≠ j)
    (hh : getConstHash m[i].key.text = getConstHash m[j].key.text) :
    CheckUniqueness m = false := by
  cases hv : CheckUniqueness m with
  | false => rfl
  | true =>
    have hn := ((CheckUniqueness_iff m).mp hv).1
    refine absurd hn (not_nodup_of_getElem_eq _ i j (by simpa using hi) (by simpa using hj) hij ?_)
    simpa using hh

theorem helper_value_eq_length_iff (k : Key) (m : Tuple) :
    (MapKeyIndexHelper k m).value = m.length ↔ ∀ b ∈ m, b.key ≠ k := by
  constructor
  · intro h
    induction m with
    | nil => simp
    | cons b rest ih =>
      by_cases hb : b.key = k
      · simp [MapKeyIndexHelper, hb] at h
      · have hr : (MapKeyIndexHelper k rest).value = rest.length := by
          simp [MapKeyIndexHelper, hb] at h; omega
        intro c hc
        rcases List.mem_cons.mp hc with e | hc
        · rw [e]; exact hb
        · exact ih hr c hc
  · intro h
    rw [helper_absent k m h]

theorem helper_assert_iff (k : Key) (m : Tuple) :
    (MapKeyIndexHelper k m).assertOnce = true ↔
      m.Pairwise fun a b => ¬ (a.key = k ∧ b.key = k) := by
  induction m with
  | nil => simp [MapKeyIndexHelper]
  | cons b rest ih =>
    rw [List.pairwise_cons, ← ih]
    by_cases hb : b.key = k
    · simp [MapKeyIndexHelper, hb, helper_value_eq_length_iff, and_comm]
    · simp [MapKeyIndexHelper, hb]

theorem helper_assert_false_of_two (k : Key) (m : Tuple) (i j : Nat) (hi : i < m.length)
    (hj : j < m.length) (hij : i ≠ j) (hki : m[i].key = k) (hkj : m[j].key = k) :
    (MapKeyIndexHelper k m).assertOnce = false := by
  cases hv : (MapKeyIndexHelper k m).assertOnce with
  | false => rfl
  | true =>
    have hp := List.pairwise_iff_getElem.mp ((helper_assert_iff k m).mp hv)
    rcases Nat.lt_or_gt_of_ne hij with hlt | hgt
    · exact absurd ⟨hki, hkj⟩ (hp i j hi hj hlt)
    · exact absurd ⟨hkj, hki⟩ (hp j i hj hi hgt)

theorem helper_first (k : Key) (m : Tuple) (j : Nat) (hj : j < (MapKeyIndexHelper k m).value)
    (hjm : j < m.length) : m[j].key ≠ k := by
  induction m generalizing j with
  | nil => simp at hjm
  | cons b rest ih =>
    by_cases hb : b.key = k
    · simp [MapKeyIndexHelper, hb] at hj
    · cases j with
      | zero => simpa using hb
      | succ i =>
        have hi : i < (MapKeyIndexHelper k rest).value := by
          simp [MapKeyIndexHelper, hb] at hj; omega
        simpa using ih i hi (by simpa using hjm)

theorem helper_getElem_key (k : Key) (m : Tuple)
    (h : (MapKeyIndexHelper k m).value < m.length) :
    m[(MapKeyIndexHelper k m).value].key = k := by
  obtain ⟨b, hb, hk⟩ := helper_selects k m h
  rw [List.getElem?_eq_getElem h] at hb
  rw [Option.some.inj hb]
  exact hk

theorem GetType_more_than_once (k : Key) (m : Tuple)
    (h : (MapKeyIndexHelper k m).assertOnce = false) :
    GetType ⟨k, m⟩ = .error .typeAppearsMoreThanOnce := by
  simp [GetType, MapKeyIndex, h]

theorem GetType_ok_iff (k : Key) (m : Tuple) (g : GetTypeResult) :
    GetType ⟨k, m⟩ = .ok g ↔
      (MapKeyIndexHelper k m).assertOnce = true ∧
        ∃ h : (MapKeyIndexHelper k m).value < m.length,
          g = ⟨m[(MapKeyIndexHelper k m).value].type, k⟩ := by
  cases ha : (MapKeyIndexHelper k m).assertOnce with
  | false => simp [GetType, MapKeyIndex, ha]
  | true =>
    by_cases hv : (MapKeyIndexHelper k m).value < m.length
    · simp [GetType, MapKeyIndex, ha, hv, List.getElem?_eq_getElem hv, eq_comm]
    · simp [GetType, MapKeyIndex, ha, hv]

theorem decay_idempotent (V : CppType) (h : isReference (remove_reference V) = false) :
    decay (decay V) = decay V := by
  unfold decay
  cases hU : remove_reference V with
  | object n cv => simp [remove_cv, remove_reference]
  | pointer t cv => simp [remove_cv, remove_reference]
  | lvalueRef t => simp [hU, isReference] at h
  | rvalueRef t => simp [hU, isReference] at h
  | array e n => simp [remove_cv, remove_reference]
  | function s => simp [remove_cv, remove_reference]

theorem getConstHash_lt (s : List Int) : getConstHash s < 2 ^ 64 := by
  cases s with
  | nil => simp [getConstHash]
  | cons c rest =>
    by_cases hc : c = 0
    · simp [getConstHash, hc]
    · simp only [getConstHash, ne_eq, hc, not_false_eq_true, if_true]
      exact Nat.mod_lt _ (by norm_num)

theorem toSizeT_of_ascii (c : Int) (h1 : 1 ≤ c) (h2 : c ≤ 127) : toSizeT c = c.toNat := by
  unfold toSizeT
  have : c % ((2 ^ 64 : Nat) : Int) = c := Int.emod_eq_of_lt (by omega) (by norm_num; omega)
  rw [this]

theorem exactHash_nil : exactHash [] = 5381 := by
  simp [exactHash]

theorem exactHash_cons (c : Int) (rest : List Int) :
    exactHash (c :: rest) = c.toNat + 33 * exactHash rest := by
  have hsum : ∑ i in Finset.range rest.length, (rest.getD i 0).toNat * 33 ^ (i + 1) =
      33 * ∑ i in Finset.range rest.length, (rest.getD i 0).toNat * 33 ^ i := by
    rw [Finset.mul_sum]
    refine Finset.sum_congr rfl fun i _ => ?_
    ring
  simp only [exactHash, List.length_cons, Finset.sum_range_succ', List.getD_cons_succ,
    List.getD_cons_zero, pow_zero, mul_one, hsum]
  ring

theorem getConstHash_eq_exact_mod (s : List Int) (hs : ∀ c ∈ s, 1 ≤ c ∧ c ≤ 127) :
    getConstHash s = exactHash s % 2 ^ 64 := by
  induction s with
  | nil => simp [getConstHash, exactHash_nil]
  | cons c rest ih =>
    have hc := hs c (List.mem_cons_self _ _)
    have hne : c ≠ 0 := by omega
    have hrest := ih fun d hd => hs d (List.mem_cons_of_mem _ hd)
    simp only [getConstHash, ne_eq, hne, not_false_eq_true, if_true,
      toSizeT_of_ascii c hc.1 hc.2, exactHash_cons, hrest]
    rw [Nat.add_mod_mod, Nat.add_mod (c.toNat) (33 * (exactHash rest % 2 ^ 64)),
      Nat.mul_mod_mod, ← Nat.add_mod]

theorem exactHash_bounds (s : List Int) (hs : ∀ c ∈ s, 1 ≤ c ∧ c ≤ 127) :
    5381 * 33 ^ s.length ≤ exactHash s ∧ exactHash s + 4 ≤ 5385 * 33 ^ s.length := by
  induction s with
  | nil => simp [exactHash_nil]
  | cons c rest ih =>
    have hc := hs c (List.mem_cons_self _ _)
    obtain ⟨hlo, hhi⟩ := ih fun d hd => hs d (List.mem_cons_of_mem _ hd)
    have hn : c.toNat ≤ 127 := by omega
    rw [exactHash_cons, List.length_cons, pow_succ]
    constructor <;> nlinarith

theorem hashes_nodup_iff (m : Tuple) :
    (m.map fun p => getConstHash p.key.text).Nodup ↔ HashesPairwiseDistinct m := by
  unfold List.Nodup HashesPairwiseDistinct
  rw [List.pairwise_map, List.pairwise_iff_getElem]
  constructor
  · intro h i j hi hj hij
    rcases Nat.lt_or_gt_of_ne hij with hlt | hgt
    · exact h i j hi hj hlt
    · exact fun e => h j i hj hi hgt e.symm
  · intro h i j hi hj hij
    exact h i j hi hj (Nat.ne_of_lt hij)

theorem keys_nodup_of_hashes_nodup (m : Tuple)
    (h : (m.map fun p => getConstHash p.key.text).Nodup) :
    (m.map fun p => p.key).Nodup := by
  have hm : (m.map fun p => getConstHash p.key.text) =
      (m.map fun p => p.key).map fun k => getConstHash k.text := by
    rw [List.map_map]; rfl
  rw [hm] at h
  exact List.Nodup.of_map _ h

theorem CheckUniqueness_eq_hashes (m : Tuple) :
    CheckUniqueness m = IsUnique (m.map fun p => getConstHash p.key.text) := by
  unfold CheckUniqueness
  cases hv : IsUnique (m.map fun p => getConstHash p.key.text) with
  | false => rfl
  | true =>
    have hk := keys_nodup_of_hashes_nodup m ((IsUnique_iff_nodup _).mp hv)
    simp [(IsUnique_iff_nodup _).mpr hk]

/-! ## Claims -/

/-- C1: on a map that passes `CheckUniqueness`, resolving the key constant of
the binding at position `i` succeeds: no assertion of `MapKeyIndex` fires, the
index is `i`, and `GetType` yields the declared type of that binding. -/
theorem resolve_bound_position (m : Tuple) (i : Nat) (hu : CheckUniqueness m = true)
    (hi : i < m.length) :
    MapKeyIndex m[i].key m = ⟨i, true, true⟩ ∧
      GetType ⟨m[i].key, m⟩ = .ok ⟨m[i].type, m[i].key⟩ := by
  have hn := ((CheckUniqueness_iff m).mp hu).2
  have hh := helper_at m hn i hi
  refine ⟨by simp [MapKeyIndex, hh, hi], ?_⟩
  exact GetType_of_helper _ m m[i] i hh (List.getElem?_eq_getElem hi)

theorem resolve_bound_position_witness :
    CheckUniqueness CompileTimeMap = true ∧ 2 < CompileTimeMap.length ∧
      MapKeyIndex is CompileTimeMap = ⟨2, true, true⟩ ∧
      GetType IsParam = .ok ⟨double, is⟩ :=
  ⟨by decide, by decide, resolve_bound_position CompileTimeMap 2 (by decide) (by decide)⟩

/-- C2: a map with two bindings at different positions whose key texts are
equal fails `CheckUniqueness`, whatever the declared types and whether or not
the two key constants are the same. -/
theorem duplicate_text_rejected (m : Tuple) (i j : Nat) (hi : i < m.length)
    (hj : j < m.length) (hij : i ≠ j) (ht : m[i].key.text = m[j].key.text) :
    CheckUniqueness m = false := by
  cases hv : CheckUniqueness m with
  | false => rfl
  | true =>
    have hn := ((CheckUniqueness_iff m).mp hv).1
    refine absurd hn (not_nodup_of_getElem_eq _ i j (by simpa using hi) (by simpa using hj) hij ?_)
    simp [ht]

theorem duplicate_text_rejected_witness :
    CheckUniqueness NonUniqueTypeMap = false ∧ CheckUniqueness OtherNonUniqueTypeMap = false :=
  ⟨duplicate_text_rejected NonUniqueTypeMap 0 1 (by decide) (by decide) (by decide) (by decide),
   duplicate_text_rejected OtherNonUniqueTypeMap 0 1 (by decide) (by decide) (by decide)
     (by decide)⟩

/-- C3: a query key whose text differs from the key text of every binding is
not resolved: `MapKeyIndex` has `value` equal to the tuple size, its assertion
"type does not appear in tuple" fails, and so does `GetType`. -/
theorem absent_text_not_found (m : Tuple) (k : Key)
    (h : ∀ b ∈ m, b.key.text ≠ k.text) :
    MapKeyIndex k m = ⟨m.length, true, false⟩ ∧
      GetType ⟨k, m⟩ = .error .typeDoesNotAppear := by
  have hk : ∀ b ∈ m, b.key ≠ k := fun b hb e => h b hb (by rw [e])
  exact ⟨by simp [MapKeyIndex, helper_absent k m hk], GetType_absent k m hk⟩

theorem absent_text_not_found_witness :
    (∀ b ∈ CompileTimeMap, b.key.text ≠ nowhere.text) ∧
      MapKeyIndex nowhere CompileTimeMap = ⟨4, true, false⟩ ∧
      GetType NoWhereParam = .error .typeDoesNotAppear :=
  ⟨by decide, absent_text_not_found CompileTimeMap nowhere (by decide)⟩

/-- C5: whenever resolution succeeds, `set` with a value type `V` is accepted
exactly when `std::decay_t<V>` is the declared type of the resolved binding;
any other `V` (convertible or not) leaves no viable overload. -/
theorem set_accepts_iff_decay (T : Param) (V : CppType)
    (h1 : (MapKeyIndex T.text T.Tuple).assertOnce = true)
    (h2 : (MapKeyIndex T.text T.Tuple).assertAppears = true) :
    ∃ b, T.Tuple[(MapKeyIndex T.text T.Tuple).value]? = some b ∧ b.key = T.text ∧
      (set T V = .ok () ↔ decay V = b.type) ∧
      (decay V ≠ b.type → set T V = .error .noMatchingFunction) := by
  obtain ⟨k, m⟩ := T
  simp only [MapKeyIndex, decide_eq_true_eq] at h1 h2
  obtain ⟨b, hb, hk⟩ := helper_selects k m h2
  refine ⟨b, hb, hk, ?_⟩
  have hh : MapKeyIndexHelper k m = ⟨(MapKeyIndexHelper k m).value, true⟩ := by
    rw [← h1]
  have hg := GetType_of_helper k m b _ hh hb
  by_cases hd : decay V = b.type
  · simp [set, hg, hd]
  · simp [set, hg, hd]

theorem set_accepts_iff_decay_witness :
    (MapKeyIndex IsParam.text IsParam.Tuple).assertOnce = true ∧
      (MapKeyIndex IsParam.text IsParam.Tuple).assertAppears = true ∧
      set IsParam double = .ok () ∧
      set IsParam (.lvalueRef (.object "double" ⟨true, false⟩)) = .ok () ∧
      set IsParam bool = .error .noMatchingFunction ∧
      ∃ b, IsParam.Tuple[(MapKeyIndex IsParam.text IsParam.Tuple).value]? = some b ∧
        b.key = IsParam.text ∧ (set IsParam bool = .ok () ↔ decay bool = b.type) ∧
        (decay bool ≠ b.type → set IsParam bool = .error .noMatchingFunction) :=
  ⟨by decide, by decide, by decide, by decide, by decide,
   set_accepts_iff_decay IsParam bool (by decide) (by decide)⟩

/-- C6, as stated, fails: the key texts of `CollidingMap` are pairwise distinct,
yet `CheckUniqueness` is false on it, because the two hashes agree. -/
theorem distinct_texts_rejected :
    CollidingMap.Pairwise (fun a b => a.key.text ≠ b.key.text) ∧
      getConstHash aB.text = getConstHash atC.text ∧
      CheckUniqueness CollidingMap = false := by
  decide

/-- C6, amended: a map whose bindings have pairwise-distinct key texts and
pairwise-distinct hashes passes `CheckUniqueness`. -/
theorem distinct_hashes_accepted (m : Tuple)
    (ht : m.Pairwise fun a b => a.key.text ≠ b.key.text)
    (hh : m.Pairwise fun a b => getConstHash a.key.text ≠ getConstHash b.key.text) :
    CheckUniqueness m = true := by
  rw [CheckUniqueness_iff]
  constructor
  · exact (List.pairwise_map).mpr hh
  · refine (List.pairwise_map).mpr (ht.imp ?_)
    intro a b hab e
    exact hab (by rw [e])

theorem distinct_hashes_accepted_witness :
    (CompileTimeMap.Pairwise fun a b => a.key.text ≠ b.key.text) ∧
      (CompileTimeMap.Pairwise fun a b =>
        getConstHash a.key.text ≠ getConstHash b.key.text) ∧
      CheckUniqueness CompileTimeMap = true :=
  ⟨by decide, by decide, distinct_hashes_accepted CompileTimeMap (by decide) (by decide)⟩

/-- C7, as stated, fails: `CompileTimeMap` passes `CheckUniqueness` and binds
`world`; the separately declared `anotherWorld` has the same text, yet it is
not resolved: the assertion "type does not appear in tuple" fails. -/
theorem same_text_not_resolved :
    CheckUniqueness CompileTimeMap = true ∧
      (⟨world, true_type⟩ : KeyTypePair) ∈ CompileTimeMap ∧
      anotherWorld.text = world.text ∧
      MapKeyIndex anotherWorld CompileTimeMap = ⟨4, true, false⟩ ∧
      GetType ⟨anotherWorld, CompileTimeMap⟩ = .error .typeDoesNotAppear := by
  decide

/-- C7, amended: lookup is by key constant.  On a map that passes
`CheckUniqueness`, a query key that is the key constant of a binding is
resolved to that binding's position and declared type; a different constant
that merely has the text of a bound key is not resolved. -/
theorem resolve_by_constant (m : Tuple) (k : Key) (b : KeyTypePair)
    (hu : CheckUniqueness m = true) (hb : b ∈ m) :
    (b.key = k → ∃ i, m[i]? = some b ∧ MapKeyIndex k m = ⟨i, true, true⟩ ∧
        GetType ⟨k, m⟩ = .ok ⟨b.type, k⟩) ∧
      (b.key.text = k.text → b.key ≠ k →
        GetType ⟨k, m⟩ = .error .typeDoesNotAppear) := by
  obtain ⟨hhash, hkey⟩ := (CheckUniqueness_iff m).mp hu
  obtain ⟨i, hi, hib⟩ := List.getElem_of_mem hb
  constructor
  · intro hk
    have hh := helper_at m hkey i hi
    rw [hib, hk] at hh
    have hget : m[i]? = some b := by rw [List.getElem?_eq_getElem hi, hib]
    exact ⟨i, hget, by simp [MapKeyIndex, hh, hi], GetType_of_helper k m b i hh hget⟩
  · intro ht hne
    refine GetType_absent k m fun c hc hck => ?_
    obtain ⟨j, hj, hjc⟩ := List.getElem_of_mem hc
    have hij : i ≠ j := by
      intro e
      subst e
      exact hne (by rw [← hib, hjc, hck])
    refine not_nodup_of_getElem_eq _ i j (by simpa using hi) (by simpa using hj) hij ?_ hhash
    simp [hib, hjc, ht, hck]

theorem resolve_by_constant_witness :
    CheckUniqueness CompileTimeMap = true ∧
      (⟨world, true_type⟩ : KeyTypePair) ∈ CompileTimeMap ∧
      (∃ i, CompileTimeMap[i]? = some ⟨world, true_type⟩ ∧
        MapKeyIndex world CompileTimeMap = ⟨i, true, true⟩ ∧
        GetType ⟨world, CompileTimeMap⟩ = .ok ⟨true_type, world⟩) ∧
      GetType ⟨anotherWorld, CompileTimeMap⟩ = .error .typeDoesNotAppear :=
  ⟨by decide, by decide,
   (resolve_by_constant CompileTimeMap world ⟨world, true_type⟩ (by decide) (by decide)).1 rfl,
   (resolve_by_constant CompileTimeMap anotherWorld ⟨world, true_type⟩ (by decide)
     (by decide)).2 (by decide) (by decide)⟩

/-- C8: for a key that no binding of the map has, resolution fails with "type
does not appear in tuple", and `get` and `set` are rejected with that same
failure, `set` for every value type. -/
theorem absent_key_rejected (isClass : String → Bool) (m : Tuple) (k : Key) (V : CppType)
    (h : ∀ b ∈ m, b.key ≠ k) :
    GetType ⟨k, m⟩ = .error .typeDoesNotAppear ∧
      get isClass ⟨k, m⟩ = .error .typeDoesNotAppear ∧
      set ⟨k, m⟩ V = .error .typeDoesNotAppear := by
  have hg := GetType_absent k m h
  simp [get, set, hg]

theorem absent_key_rejected_witness :
    (∀ b ∈ CompileTimeMap, b.key ≠ nowhere) ∧
      GetType NoWhereParam = .error .typeDoesNotAppear ∧
      get programClasses NoWhereParam = .error .typeDoesNotAppear ∧
      set NoWhereParam double = .error .typeDoesNotAppear :=
  ⟨by decide, absent_key_rejected programClasses CompileTimeMap nowhere double (by decide)⟩

/-- C9: a map with two bindings whose key texts differ and whose
`getConstHash` values agree fails `CheckUniqueness`. -/
theorem hash_collision_rejected (m : Tuple) (i j : Nat) (hi : i < m.length)
    (hj : j < m.length) (ht : m[i].key.text ≠ m[j].key.text)
    (hh : getConstHash m[i].key.text = getConstHash m[j].key.text) :
    CheckUniqueness m = false := by
  have hij : i ≠ j := by
    intro e
    subst e
    exact ht rfl
  cases hv : CheckUniqueness m with
  | false => rfl
  | true =>
    have hn := ((CheckUniqueness_iff m).mp hv).1
    refine absurd hn (not_nodup_of_getElem_eq _ i j (by simpa using hi) (by simpa using hj) hij ?_)
    simpa using hh

theorem hash_collision_rejected_witness :
    getConstHash (chars "aB") = 97 + 33 * 66 + 1089 * 5381 ∧
      getConstHash (chars "@C") = 64 + 33 * 67 + 1089 * 5381 ∧
      CheckUniqueness CollidingMap = false :=
  ⟨by decide, by decide,
   hash_collision_rejected CollidingMap 0 1 (by decide) (by decide) (by decide) (by decide)⟩

/-- C10: `getConstHash` of the empty text is 5381, and for a character `c`
with code in 1..127, `getConstHash` of `c` followed by `rest` is
`(code c + 33 * getConstHash rest) mod 2 ^ 64`. -/
theorem getConstHash_recurrence (c : Int) (rest : List Int) (h1 : 1 ≤ c) (h2 : c ≤ 127) :
    getConstHash [] = 5381 ∧
      getConstHash (c :: rest) = (c.toNat + 33 * getConstHash rest) % 2 ^ 64 := by
  refine ⟨rfl, ?_⟩
  have hc : c ≠ 0 := by omega
  have hs : toSizeT c = c.toNat := by
    unfold toSizeT
    have : c % ((2 ^ 64 : Nat) : Int) = c := Int.emod_eq_of_lt (by omega) (by norm_num; omega)
    rw [this]
  simp only [getConstHash, hc, ne_eq, not_false_eq_true, if_true, hs]
  exact (Nat.add_mod_mod _ _ _)

theorem getConstHash_recurrence_witness :
    (1 : Int) ≤ 97 ∧ (97 : Int) ≤ 127 ∧ getConstHash [] = 5381 ∧
      getConstHash (97 :: chars "B") = ((97 : Int).toNat + 33 * getConstHash (chars "B")) % 2 ^ 64 :=
  ⟨by decide, by decide, getConstHash_recurrence 97 (chars "B") (by decide) (by decide)⟩

/-- C12, as stated, fails in both directions: for key `is` of
`CompileTimeMap`, declared `double`, `set` accepts the different type
`const double &`; and for key `is` of `ConstMap`, declared `const double`,
`set` rejects the identical type `const double`. -/
theorem set_strips_qualifiers :
    GetType IsParam = .ok ⟨double, is⟩ ∧ constDoubleRef ≠ double ∧
      set IsParam constDoubleRef = .ok () ∧
      GetType ⟨is, ConstMap⟩ = .ok ⟨constDouble, is⟩ ∧
      set ⟨is, ConstMap⟩ constDouble = .error .noMatchingFunction := by
  decide

/-- C12, amended: when resolution succeeds, `set` succeeds exactly when
`std::decay_t<V>` is identical to the declared type.  Qualifiers are stripped
from `V` only: for a declared type that `std::decay_t` would change (a
const-qualified or reference type) no value type is accepted. -/
theorem set_accepts_iff_decayed_identical (T : Param) (g : GetTypeResult) (V : CppType)
    (hg : GetType T = .ok g) :
    (set T V = .ok () ↔ decay V = g.type) ∧
      (decay g.type ≠ g.type → isReference (remove_reference V) = false →
        set T V = .error .noMatchingFunction) := by
  by_cases hd : decay V = g.type
  · refine ⟨by simp [set, hg, hd], fun hne hV => ?_⟩
    exact absurd (by rw [← hd]; exact decay_idempotent V hV) hne
  · exact ⟨by simp [set, hg, hd], fun _ _ => by simp [set, hg, hd]⟩

theorem set_accepts_iff_decayed_identical_witness :
    GetType ⟨is, ConstMap⟩ = .ok ⟨constDouble, is⟩ ∧
      decay constDouble ≠ constDouble ∧
      (set ⟨is, ConstMap⟩ constDouble = .ok () ↔ decay constDouble = constDouble) ∧
      set ⟨is, ConstMap⟩ constDouble = .error .noMatchingFunction ∧
      (set IsParam constDoubleRef = .ok () ↔ decay constDoubleRef = double) :=
  ⟨by decide, by decide,
   (set_accepts_iff_decayed_identical ⟨is, ConstMap⟩ ⟨constDouble, is⟩ constDouble
     (by decide)).1,
   (set_accepts_iff_decayed_identical ⟨is, ConstMap⟩ ⟨constDouble, is⟩ constDouble
     (by decide)).2 (by decide) (by decide),
   (set_accepts_iff_decayed_identical IsParam ⟨double, is⟩ constDoubleRef (by decide)).1⟩

/-- C14, as stated, fails: `CollidingMap` has pairwise-distinct key texts and
a hash collision, `NonUniqueTypeMap` has two bindings with equal key text, and
`CheckUniqueness` gives the same result on both. -/
theorem collision_and_duplicate_same_result :
    CollidingMap.Pairwise (fun a b => a.key.text ≠ b.key.text) ∧
      getConstHash aB.text = getConstHash atC.text ∧
      world.text = anotherWorld.text ∧
      CheckUniqueness CollidingMap = CheckUniqueness NonUniqueTypeMap := by
  decide

/-- C14, amended: the result of `CheckUniqueness` is one Boolean.  A map with
two bindings of different key texts and equal hashes and a map with two
bindings of equal key text both yield `false`, the same result. -/
theorem uniqueness_failures_coincide (m₁ m₂ : Tuple) (i j p q : Nat)
    (hi : i < m₁.length) (hj : j < m₁.length) (hp : p < m₂.length) (hq : q < m₂.length)
    (ht : m₁[i].key.text ≠ m₁[j].key.text)
    (hh : getConstHash m₁[i].key.text = getConstHash m₁[j].key.text)
    (hpq : p ≠ q) (hd : m₂[p].key.text = m₂[q].key.text) :
    CheckUniqueness m₁ = false ∧ CheckUniqueness m₂ = false ∧
      CheckUniqueness m₁ = CheckUniqueness m₂ := by
  have hij : i ≠ j := by
    intro e
    subst e
    exact ht rfl
  have h1 := CheckUniqueness_false_of_hash_eq m₁ i j hi hj hij hh
  have h2 := CheckUniqueness_false_of_hash_eq m₂ p q hp hq hpq (by rw [hd])
  exact ⟨h1, h2, by rw [h1, h2]⟩

theorem uniqueness_failures_coincide_witness :
    CheckUniqueness CollidingMap = false ∧ CheckUniqueness OtherNonUniqueTypeMap = false ∧
      CheckUniqueness CollidingMap = CheckUniqueness OtherNonUniqueTypeMap :=
  uniqueness_failures_coincide CollidingMap OtherNonUniqueTypeMap 0 1 0 1 (by decide)
    (by decide) (by decide) (by decide) (by decide) (by decide) (by decide) (by decide)

/-- C15: `CheckUniqueness` is decided by the hashes alone.  It is true exactly
when bindings at different positions have different `getConstHash` values; it
equals the first conjunct `IsUnique<SizeHelper<...>...>`; and a map with the
same keys at the same positions, whatever its declared types, has the same
result. -/
theorem CheckUniqueness_iff_hashes (m n : Tuple)
    (hk : (n.map fun p => p.key) = m.map fun p => p.key) :
    (CheckUniqueness m = true ↔ HashesPairwiseDistinct m) ∧
      CheckUniqueness m = IsUnique (m.map fun p => getConstHash p.key.text) ∧
      CheckUniqueness n = CheckUniqueness m := by
  refine ⟨?_, CheckUniqueness_eq_hashes m, ?_⟩
  · rw [CheckUniqueness_eq_hashes, IsUnique_iff_nodup, hashes_nodup_iff]
  · have hm : ∀ t : Tuple, (t.map fun p => getConstHash p.key.text) =
        (t.map fun p => p.key).map fun k => getConstHash k.text := by
      intro t
      rw [List.map_map]; rfl
    rw [CheckUniqueness_eq_hashes, CheckUniqueness_eq_hashes, hm n, hm m, hk]

theorem CheckUniqueness_iff_hashes_witness :
    HashesPairwiseDistinct CompileTimeMap ∧
      CheckUniqueness [⟨hello, bool⟩, ⟨world, bool⟩, ⟨is, bool⟩, ⟨empty, bool⟩] =
        CheckUniqueness CompileTimeMap :=
  ⟨(CheckUniqueness_iff_hashes CompileTimeMap CompileTimeMap rfl).1.mp (by decide),
   (CheckUniqueness_iff_hashes CompileTimeMap
     [⟨hello, bool⟩, ⟨world, bool⟩, ⟨is, bool⟩, ⟨empty, bool⟩] (by decide)).2.2⟩

/-- C16: when two bindings at different positions have the queried key
constant, resolution fails with "type appears more than once in tuple", and so
do `get` and `set`, with no reference to `CheckUniqueness`; and whenever
resolution succeeds, exactly one binding has the queried key constant. -/
theorem repeated_key_rejected (isClass : String → Bool) (m : Tuple) (k : Key) :
    (∀ (i j : Nat) (hi : i < m.length) (hj : j < m.length), i ≠ j →
        m[i].key = k → m[j].key = k →
          (MapKeyIndex k m).assertOnce = false ∧
          GetType ⟨k, m⟩ = .error .typeAppearsMoreThanOnce ∧
          get isClass ⟨k, m⟩ = .error .typeAppearsMoreThanOnce ∧
          ∀ V, set ⟨k, m⟩ V = .error .typeAppearsMoreThanOnce) ∧
      (∀ g, GetType ⟨k, m⟩ = .ok g →
        ∃ (i : Nat) (hi : i < m.length), m[i].key = k ∧
          ∀ (j : Nat) (hj : j < m.length), m[j].key = k → j = i) := by
  constructor
  · intro i j hi hj hij hki hkj
    have hf := helper_assert_false_of_two k m i j hi hj hij hki hkj
    have hg := GetType_more_than_once k m hf
    exact ⟨by simp [MapKeyIndex, hf], hg, by simp [get, hg], fun V => by simp [set, hg]⟩
  · intro g hg
    obtain ⟨ha, hlt, -⟩ := (GetType_ok_iff k m g).mp hg
    refine ⟨_, hlt, helper_getElem_key k m hlt, fun j hj hkj => ?_⟩
    by_contra hne
    have hf := helper_assert_false_of_two k m j _ hj hlt hne hkj (helper_getElem_key k m hlt)
    rw [ha] at hf
    cases hf

theorem repeated_key_rejected_witness :
    ((MapKeyIndex world OtherNonUniqueTypeMap).assertOnce = false ∧
        GetType ⟨world, OtherNonUniqueTypeMap⟩ = .error .typeAppearsMoreThanOnce ∧
        get programClasses ⟨world, OtherNonUniqueTypeMap⟩ = .error .typeAppearsMoreThanOnce ∧
        ∀ V, set ⟨world, OtherNonUniqueTypeMap⟩ V = .error .typeAppearsMoreThanOnce) ∧
      (GetType ⟨world, TripleMap⟩ = .error .typeAppearsMoreThanOnce) ∧
      ∃ (i : Nat) (hi : i < CompileTimeMap.length), CompileTimeMap[i].key = world ∧
        ∀ (j : Nat) (hj : j < CompileTimeMap.length), CompileTimeMap[j].key = world → j = i :=
  ⟨(repeated_key_rejected programClasses OtherNonUniqueTypeMap world).1 0 1 (by decide) (by decide)
     (by decide) (by decide) (by decide),
   ((repeated_key_rejected programClasses TripleMap world).1 1 3 (by decide) (by decide)
     (by decide) (by decide) (by decide)).2.1,
   (repeated_key_rejected programClasses CompileTimeMap world).2 ⟨true_type, world⟩ (by decide)⟩

/-- C17: for a key text of characters with codes in 1..127, the 64-bit
`getConstHash` equals the exact integer `exactHash` when the text has at most
10 characters; with 11 or more characters the exact integer is at least
`2 ^ 64` and the 64-bit value differs from it. -/
theorem getConstHash_exact_iff_short (s : List Int) (hs : ∀ c ∈ s, 1 ≤ c ∧ c ≤ 127) :
    (s.length ≤ 10 → getConstHash s = exactHash s) ∧
      (11 ≤ s.length → 2 ^ 64 ≤ exactHash s ∧ getConstHash s ≠ exactHash s) := by
  obtain ⟨hlo, hhi⟩ := exactHash_bounds s hs
  constructor
  · intro hn
    have hp : 33 ^ s.length ≤ 33 ^ 10 := Nat.pow_le_pow_right (by norm_num) hn
    have hlt : exactHash s < 2 ^ 64 := by
      have : 5385 * 33 ^ s.length ≤ 5385 * 33 ^ 10 := Nat.mul_le_mul_left _ hp
      have h10 : 5385 * 33 ^ 10 < 2 ^ 64 := by norm_num
      omega
    rw [getConstHash_eq_exact_mod s hs, Nat.mod_eq_of_lt hlt]
  · intro hn
    have hp : 33 ^ 11 ≤ 33 ^ s.length := Nat.pow_le_pow_right (by norm_num) hn
    have hge : 2 ^ 64 ≤ exactHash s := by
      have : 5381 * 33 ^ 11 ≤ 5381 * 33 ^ s.length := Nat.mul_le_mul_left _ hp
      have h11 : 2 ^ 64 ≤ 5381 * 33 ^ 11 := by norm_num
      omega
    have hlt := getConstHash_lt s
    exact ⟨hge, by omega⟩

theorem getConstHash_exact_iff_short_witness :
    (∀ c ∈ chars "empty", 1 ≤ c ∧ c ≤ 127) ∧
      getConstHash (chars "empty") = exactHash (chars "empty") ∧
      (∀ c ∈ chars "hello world", 1 ≤ c ∧ c ≤ 127) ∧
      2 ^ 64 ≤ exactHash (chars "hello world") ∧
      getConstHash (chars "hello world") ≠ exactHash (chars "hello world") :=
  ⟨by decide, (getConstHash_exact_iff_short (chars "empty") (by decide)).1 (by decide),
   by decide, (getConstHash_exact_iff_short (chars "hello world") (by decide)).2 (by decide)⟩

/-- C18: `IsUnique` is true exactly when no two elements at different
positions are equal, so it is true on the empty and the one-element list;
`IsOneOf` is true exactly when `F` equals some element of the list, so it is
false on the empty list. -/
theorem IsUnique_IsOneOf_spec {α : Type} [DecidableEq α] (F a : α) (l : List α) :
    (IsUnique l = true ↔
        ∀ (i j : Nat) (hi : i < l.length) (hj : j < l.length), i ≠ j → l[i] ≠ l[j]) ∧
      IsUnique ([] : List α) = true ∧ IsUnique [a] = true ∧
      (IsOneOf F l = true ↔ ∃ x ∈ l, F = x) ∧
      IsOneOf F ([] : List α) = false := by
  refine ⟨?_, rfl, rfl, ?_, rfl⟩
  · rw [IsUnique_iff_nodup]
    unfold List.Nodup
    rw [List.pairwise_iff_getElem]
    constructor
    · intro h i j hi hj hij
      rcases Nat.lt_or_gt_of_ne hij with hlt | hgt
      · exact h i j hi hj hlt
      · exact fun e => h j i hj hi hgt e.symm
    · intro h i j hi hj hij
      exact h i j hi hj (Nat.ne_of_lt hij)
  · rw [IsOneOf_iff_mem]
    constructor
    · intro h
      exact ⟨F, h, rfl⟩
    · rintro ⟨x, hx, e⟩
      rw [e]
      exact hx

theorem IsUnique_IsOneOf_spec_witness :
    IsOneOf world [hello, world, is] = true ∧
      ¬ (∀ (i j : Nat) (hi : i < [world, is, world].length)
        (hj : j < [world, is, world].length), i ≠ j →
          [world, is, world][i] ≠ [world, is, world][j]) :=
  ⟨(IsUnique_IsOneOf_spec world hello [hello, world, is]).2.2.2.1.mpr ⟨world, by decide, rfl⟩,
   fun h => absurd ((IsUnique_IsOneOf_spec world hello [world, is, world]).1.mpr h)
     (by decide)⟩

/-- C19: the `value` of `MapKeyIndexHelper` is at most the length of the map;
it is the length exactly when no binding has the key constant; and when some
binding has it, `value` is the position of the first such binding.  This holds
in particular when no "type appears more than once in tuple" assertion fires. -/
theorem helper_value_spec (k : Key) (m : Tuple) :
    (MapKeyIndexHelper k m).value ≤ m.length ∧
      ((MapKeyIndexHelper k m).value = m.length ↔ ∀ b ∈ m, b.key ≠ k) ∧
      ((∃ b ∈ m, b.key = k) →
        ∃ hv : (MapKeyIndexHelper k m).value < m.length,
          m[(MapKeyIndexHelper k m).value].key = k ∧
          ∀ (j : Nat) (hj : j < m.length), j < (MapKeyIndexHelper k m).value → m[j].key ≠ k) := by
  refine ⟨helper_value_le k m, helper_value_eq_length_iff k m, ?_⟩
  rintro ⟨b, hb, hk⟩
  have hne : (MapKeyIndexHelper k m).value ≠ m.length :=
    fun e => (helper_value_eq_length_iff k m).mp e b hb hk
  have hle := helper_value_le k m
  have hv : (MapKeyIndexHelper k m).value < m.length := by omega
  exact ⟨hv, helper_getElem_key k m hv, fun j hj hlt => helper_first k m j hlt hj⟩

theorem helper_value_spec_witness :
    (MapKeyIndexHelper is CompileTimeMap).assertOnce = true ∧
      (MapKeyIndexHelper is CompileTimeMap).value = 2 ∧
      (MapKeyIndexHelper nowhere CompileTimeMap).value = CompileTimeMap.length ∧
      ∃ hv : (MapKeyIndexHelper is CompileTimeMap).value < CompileTimeMap.length,
        CompileTimeMap[(MapKeyIndexHelper is CompileTimeMap).value].key = is ∧
        ∀ (j : Nat) (hj : j < CompileTimeMap.length),
          j < (MapKeyIndexHelper is CompileTimeMap).value → CompileTimeMap[j].key ≠ is :=
  ⟨by decide, by decide,
   (helper_value_spec nowhere CompileTimeMap).2.1.mpr (by decide),
   (helper_value_spec is CompileTimeMap).2.2 ⟨⟨is, double⟩, by decide, rfl⟩⟩

end CompileTimeMaps
